import Mathlib

/-!
Shallow embedding of the CRM analytics dashboard (`dashboard.py`).

The computational core of the program:
* `load_and_process_data` — reads the customer CSV, coerces the numeric
  columns (`pd.to_numeric(errors='coerce')`), drops rows with missing
  `cltv` (`dropna(subset=['cltv'])`), grades the surviving rows with
  `pd.qcut(df['cltv'], q=[0, 0.4, 0.7, 0.9, 1.0], labels=[...],
  duplicates='drop')` and adds three derived profit columns.
  Only `FileNotFoundError` is caught (returning `None`, rendered as an
  error banner); every other exception propagates.
* `load_ai_strategies` — reads a strategy CSV into a first-occurrence-wins
  segment → strategy dictionary; a missing file yields `{}`.
* `get_rfm_segment_strategy` — resolves a segment to strategy text with a
  fixed 10-entry default table and a generated fallback string.
* `main` — filters the dataset by the selected grade labels and the
  selected RFM segment and computes group-by aggregations.

Numbers are modelled as exact rationals (`ℚ`); a pandas `NaN` cell is a
missing value (`Option` / `Cell.empty`).
-/

/-- A CSV cell after `pd.read_csv`: a numeric value, a non-numeric string
(which `pd.to_numeric(errors='coerce')` turns into `NaN`), or a missing
value (`NaN`). -/
inductive Cell : Type where
  | num (q : ℚ)
  | str (s : String)
  | empty
deriving DecidableEq

/-- A CSV row: an association list from column name to cell. -/
abbrev Row : Type := List (String × Cell)

/-- Look up a column in a row (a present key may still hold `NaN`). -/
def findCell (r : Row) (c : String) : Option Cell :=
  (r.find? (fun kv => kv.1 == c)).map (fun kv => kv.2)

/-- The cell of column `c`, `NaN` when the key is absent. -/
def getCell (r : Row) (c : String) : Cell :=
  (findCell r c).getD Cell.empty

/-- An in-memory CSV table: the column names plus the rows. -/
structure RawTable : Type where
  header : List String
  rows : List Row
deriving DecidableEq

/-- `pd.to_numeric(cell, errors='coerce')`: numbers stay, non-numeric
strings and missing values coerce to `NaN` (`none`). -/
def Cell.toNumeric : Cell → Option ℚ
  | Cell.num q => some q
  | Cell.str _ => none
  | Cell.empty => none

/-- The columns coerced at lines 77-81 of `dashboard.py`. -/
def numeric_cols : List String :=
  ["cltv", "expected_purc_3_month", "expected_purc_6_month",
   "expected_average_profit", "monetary", "frequency"]

/-- One cell after numeric coercion: the parsed number, else `NaN`. -/
def coerceCell (c : Cell) : Cell :=
  match c.toNumeric with
  | some q => Cell.num q
  | none => Cell.empty

/-- Lines 79-81: each numeric column present in the table is coerced
(`if col in df.columns: df[col] = pd.to_numeric(df[col], errors='coerce')`). -/
def coerceNumerics (t : RawTable) : RawTable :=
  { t with
    rows := t.rows.map (fun r =>
      r.map (fun kv =>
        if kv.1 ∈ numeric_cols ∧ kv.1 ∈ t.header then (kv.1, coerceCell kv.2)
        else kv)) }

/-- The numeric value of column `c` in a row, `none` for `NaN`. -/
def getNum (r : Row) (c : String) : Option ℚ :=
  match getCell r c with
  | Cell.num q => some q
  | _ => none

/-- The four CLTV grades, in ascending quantile order. -/
inductive Grade : Type where
  | D
  | C
  | B
  | A
deriving DecidableEq

/-- The categorical label of each grade (the `labels=[...]` of `pd.qcut`). -/
def Grade.label : Grade → String
  | Grade.D => "D (At Risk)"
  | Grade.C => "C (Re-Engagement)"
  | Grade.B => "B (High Potential)"
  | Grade.A => "A (Champions)"

/-- Position of a grade in the ascending category order D < C < B < A. -/
def Grade.rank : Grade → ℕ
  | Grade.D => 0
  | Grade.C => 1
  | Grade.B => 2
  | Grade.A => 3

/-- `df['cltv_grade'].astype(str)`: the label for a present grade, the
string "nan" for a missing one. -/
def gradeStr : Option Grade → String
  | some g => g.label
  | none => "nan"

/-- The values sorted ascending (`numpy` sorts before interpolating;
any sorting algorithm produces the same value list). -/
def sortQ (xs : List ℚ) : List ℚ :=
  List.insertionSort (· ≤ ·) xs

/-- Linear interpolation of a sorted list at fractional index `h`
(the `numpy` default interpolation used by `pd.qcut`’s quantiles):
with `i = ⌊h⌋`, the result is `s[i] + (h - i) * (s[i+1] - s[i])`. -/
def interpAt (s : List ℚ) (h : ℚ) : ℚ :=
  s.getD (⌊h⌋).toNat 0 +
    (h - ((⌊h⌋).toNat : ℚ)) *
      (s.getD ((⌊h⌋).toNat + 1) (s.getD (⌊h⌋).toNat 0) - s.getD (⌊h⌋).toNat 0)

/-- The `p`-quantile of `xs` with linear interpolation at fractional
index `p * (len - 1)` (the `numpy`/pandas default). -/
def quantile (xs : List ℚ) (p : ℚ) : ℚ :=
  interpAt (sortQ xs) (p * ((xs.length : ℚ) - 1))

/-- The five quantile bin edges `q=[0, 0.4, 0.7, 0.9, 1.0]` of line 88. -/
def qcutEdges (xs : List ℚ) : List ℚ :=
  [quantile xs 0, quantile xs (2/5), quantile xs (7/10),
   quantile xs (9/10), quantile xs 1]

/-- Which of the four right-closed bins `(b0,b1], (b1,b2], (b2,b3], (b3,b4]`
a value falls into, the lowest bin including its left edge
(`pd.cut` with `include_lowest=True`, as called by `pd.qcut`). -/
def gradeOf (b1 b2 b3 x : ℚ) : Grade :=
  if x ≤ b1 then Grade.D
  else if x ≤ b2 then Grade.C
  else if x ≤ b3 then Grade.B
  else Grade.A

/-- The full bin lookup: values outside `[b0, b4]` get `NaN` (pandas marks
them missing); inside, the bin of `gradeOf`. -/
def qcutLabel (b0 b1 b2 b3 b4 x : ℚ) : Option Grade :=
  if x < b0 ∨ b4 < x then none
  else some (gradeOf b1 b2 b3 x)

/-- `a * b` with `NaN` propagation. -/
def optMul : Option ℚ → Option ℚ → Option ℚ
  | some a, some b => some (a * b)
  | _, _ => none

/-- A processed customer record: the coerced CSV fields plus the derived
`cltv_grade` and the three profit columns of lines 87-96. -/
structure Record : Type where
  customerId : Cell
  segment : Cell
  cltv : ℚ
  expectedPurc3Month : Option ℚ
  expectedPurc6Month : Option ℚ
  expectedAverageProfit : Option ℚ
  monetary : Option ℚ
  frequency : Option ℚ
  cltvGrade : Option Grade
  currentProfit : Option ℚ
  projectedProfit3M : Option ℚ
  projectedProfit6M : Option ℚ
deriving DecidableEq

/-- Build one processed record from a surviving row, given the five qcut
bin edges.  `Current Profit = expected_average_profit`,
`Projected Profit (3/6 Months) = expected_average_profit *
expected_purc_3/6_month` (lines 94-96), all row-local. -/
def mkRecord (b0 b1 b2 b3 b4 : ℚ) (r : Row) : Record :=
  let eap := getNum r "expected_average_profit"
  let p3 := getNum r "expected_purc_3_month"
  let p6 := getNum r "expected_purc_6_month"
  let cltv := (getNum r "cltv").getD 0
  { customerId := getCell r "Customer ID"
    segment := getCell r "segment"
    cltv := cltv
    expectedPurc3Month := p3
    expectedPurc6Month := p6
    expectedAverageProfit := eap
    monetary := getNum r "monetary"
    frequency := getNum r "frequency"
    cltvGrade := qcutLabel b0 b1 b2 b3 b4 cltv
    currentProfit := eap
    projectedProfit3M := optMul eap p3
    projectedProfit6M := optMul eap p6 }

/-- Outcome of running `load_and_process_data`: the file was missing
(`FileNotFoundError` caught, `st.error`, `return None`), an uncaught
exception was raised, or a dataset was returned. -/
inductive LoadResult : Type where
  | missingFile
  | raised (msg : String)
  | ok (records : List Record)
deriving DecidableEq

/-- The rows surviving `df.dropna(subset=['cltv'])` (line 84): those whose
coerced `cltv` cell is an actual number. -/
def keptRows (t : RawTable) : List Row :=
  t.rows.filter (fun r => (getNum r "cltv").isSome)

/-- The `cltv` column of the surviving rows of the (coerced) input table:
the series handed to `pd.qcut` at line 87. -/
def keptCltvs (t0 : RawTable) : List ℚ :=
  (keptRows (coerceNumerics t0)).map (fun r => (getNum r "cltv").getD 0)

/-- The dataset a successful load returns: one processed record per
surviving row, graded with the quantile edges of the full surviving
`cltv` column. -/
def loadOutput (t0 : RawTable) : List Record :=
  (keptRows (coerceNumerics t0)).map
    (mkRecord (quantile (keptCltvs t0) 0) (quantile (keptCltvs t0) (2/5))
      (quantile (keptCltvs t0) (7/10)) (quantile (keptCltvs t0) (9/10))
      (quantile (keptCltvs t0) 1))

/-- `load_and_process_data` (lines 70-101).  The input is `none` when
`final_cltv_segmentation.csv` does not exist.  Steps, in program order:
numeric coercion; `dropna(subset=['cltv'])` — a `KeyError` if the column
is absent; `pd.qcut` with 5 quantile edges, 4 labels and
`duplicates='drop'` — pandas deduplicates the edges and then raises
`ValueError` if the label count no longer matches (with an empty column
the all-`NaN` edges also collapse into the same error); then the three
profit columns — a `KeyError` if one of their source columns is absent.
Only `FileNotFoundError` is caught. -/
def load_and_process_data (input : Option RawTable) : LoadResult :=
  match input with
  | none => LoadResult.missingFile
  | some t0 =>
    if "cltv" ∈ (coerceNumerics t0).header then
      if (qcutEdges (keptCltvs t0)).dedup.length = 5 then
        if "expected_average_profit" ∈ (coerceNumerics t0).header ∧
            "expected_purc_3_month" ∈ (coerceNumerics t0).header ∧
            "expected_purc_6_month" ∈ (coerceNumerics t0).header then
          LoadResult.ok (loadOutput t0)
        else LoadResult.raised "KeyError"
      else LoadResult.raised
        "ValueError: Bin labels must be one fewer than the number of bin edges"
    else LoadResult.raised "KeyError: cltv"

/-- The records of a successful load, `[]` otherwise. -/
def loadedRecords (input : Option RawTable) : List Record :=
  match load_and_process_data input with
  | LoadResult.ok records => records
  | _ => []

/-- Python truthiness of a cell value (`if ... and ai_strategies[seg]:`):
a number is truthy iff non-zero, a string iff non-empty; `NaN` is a float
and floats that are `NaN` are truthy in Python. -/
def Cell.truthy : Cell → Bool
  | Cell.num q => q != 0
  | Cell.str s => s != ""
  | Cell.empty => true

/-- `load_ai_strategies` (lines 103-118): iterate the strategy CSV rows,
taking `row.get('segment', 'Unknown')` and
`row.get('AI_Marketing_Strategy', 'Strategy not available')`, first
occurrence of a segment wins; a missing file yields the empty mapping. -/
def load_ai_strategies (input : Option (List Row)) : List (Cell × Cell) :=
  match input with
  | none => []
  | some rows =>
    rows.foldl (fun acc r =>
      let seg := (findCell r "segment").getD (Cell.str "Unknown")
      let strat := (findCell r "AI_Marketing_Strategy").getD
        (Cell.str "Strategy not available")
      if acc.any (fun kv => kv.1 == seg) then acc else acc ++ [(seg, strat)])
      []

/-- The fixed 10-entry default strategy table of lines 155-166, verbatim. -/
def default_strategies : List (String × String) :=
  [("Champions",
    "VIP Retention & Upselling: Maximize lifetime value through exclusive programs, premium rewards, and strategic cross-selling opportunities."),
   ("Loyal Customers",
    "Growth & Expansion: Increase purchase frequency and order value through personalized offers, loyalty perks, and bundle deals."),
   ("Potential Loyalists",
    "Convert & Nurture: Build customer relationships through education, incentives, and smart product recommendations."),
   ("At Risk",
    "Retention & Win-Back: Prevent churn with special offers, feedback collection, and priority service recovery."),
   ("Hibernating",
    "Re-Engagement Push: Reactivate inactive customers with special offers, product updates, and fresh engagement strategies."),
   ("Can\x27t Lose Them",
    "Emergency Intervention: Prevent loss of high-value customers with executive outreach and custom recovery programs."),
   ("New Customers",
    "Onboarding & Integration: Convert into loyal repeat customers through welcome programs and education."),
   ("Promising",
    "Accelerate Growth: Fast-track high-potential customers with engagement, early upselling, and loyalty program enrollment."),
   ("Need Attention",
    "Focused Support: Engage and retain potentially high-value customers through personalized outreach."),
   ("About To Sleep",
    "Wake-Up Campaign: Prevent hibernation with proactive outreach and relevant offers.")]

/-- The default-table lookup of line 167:
`default_strategies.get(seg, f'Develop strategic approach for ... segment.')`. -/
def rfm_default_strategy (seg : String) : Cell :=
  match default_strategies.find? (fun kv => kv.1 == seg) with
  | some kv => Cell.str kv.2
  | none =>
    Cell.str ("Develop strategic approach for " ++ seg ++ " segment.")

/-- `get_rfm_segment_strategy` (lines 148-167): the loaded strategy when
the segment is a key with a truthy value, else the static default. -/
def get_rfm_segment_strategy (seg : String) (ai : List (Cell × Cell)) :
    Cell :=
  match ai.find? (fun kv => kv.1 == Cell.str seg) with
  | some kv => if kv.2.truthy then kv.2 else rfm_default_strategy seg
  | none => rfm_default_strategy seg

/-- Round to 2 decimal places, ties to even (`DataFrame.round(2)` uses the
IEEE round-half-to-even of `numpy`, modelled exactly on ℚ). -/
def round2 (q : ℚ) : ℚ :=
  let m : ℚ := q * 100
  let f : ℤ := ⌊m⌋
  let frac : ℚ := m - (f : ℚ)
  if frac < 1/2 then (f : ℚ) / 100
  else if 1/2 < frac then ((f : ℚ) + 1) / 100
  else if f % 2 = 0 then (f : ℚ) / 100 else ((f : ℚ) + 1) / 100

/-- pandas `mean` over a column with missing values: `NaN`s are skipped,
an all-`NaN` (or empty) column has mean `NaN`. -/
def optMean (l : List (Option ℚ)) : Option ℚ :=
  let vs := l.filterMap id
  if vs.isEmpty then none else some (vs.sum / (vs.length : ℚ))

/-- pandas `sum` over a column with missing values: `NaN`s are skipped,
an empty sum is 0. -/
def optSum (l : List (Option ℚ)) : ℚ :=
  (l.filterMap id).sum

/-- Mean of an always-present column (only applied to nonempty groups). -/
def meanQ (l : List ℚ) : ℚ :=
  l.sum / (l.length : ℚ)

/-- One row of the grade-wise financial aggregation of lines 242-248. -/
structure GradeRow : Type where
  grade : Grade
  customerCount : ℕ
  avgCurrentProfit : Option ℚ
  totalCurrentProfit : ℚ
  avgProj3M : Option ℚ
  totalProj3M : ℚ
  avgProj6M : Option ℚ
  totalProj6M : ℚ
  avgCltv : ℚ
  totalCltv : ℚ
deriving DecidableEq

/-- The grades observed in the data, in ascending category order
(`groupby('cltv_grade', observed=True)` keys). -/
def observedGrades (data : List Record) : List Grade :=
  [Grade.D, Grade.C, Grade.B, Grade.A].filter
    (fun g => data.any (fun r => r.cltvGrade == some g))

/-- The aggregates of one grade group.  `'Customer ID': 'count'` is the
pandas non-null count of that column; means skip `NaN`; everything is
rounded to 2 decimals by the trailing `.round(2)`. -/
def gradeRowOf (data : List Record) (g : Grade) : GradeRow :=
  let grp := data.filter (fun r => r.cltvGrade == some g)
  { grade := g
    customerCount := grp.countP (fun r => r.customerId != Cell.empty)
    avgCurrentProfit := (optMean (grp.map (fun r => r.currentProfit))).map round2
    totalCurrentProfit := round2 (optSum (grp.map (fun r => r.currentProfit)))
    avgProj3M := (optMean (grp.map (fun r => r.projectedProfit3M))).map round2
    totalProj3M := round2 (optSum (grp.map (fun r => r.projectedProfit3M)))
    avgProj6M := (optMean (grp.map (fun r => r.projectedProfit6M))).map round2
    totalProj6M := round2 (optSum (grp.map (fun r => r.projectedProfit6M)))
    avgCltv := round2 (meanQ (grp.map (fun r => r.cltv)))
    totalCltv := round2 ((grp.map (fun r => r.cltv)).sum) }

/-- `grade_financials` (lines 242-258): group the filtered data by grade
and aggregate. -/
def grade_financials (data : List Record) : List GradeRow :=
  (observedGrades data).map (gradeRowOf data)

/-- One row of the all-segments comparison of lines 684-698. -/
structure RfmRow : Type where
  segment : Cell
  customers : ℕ
  avgCltv : ℚ
  avgProfit : Option ℚ
  avgProj6M : Option ℚ
deriving DecidableEq

/-- The distinct non-null segment keys of `groupby('segment',
observed=True)` (pandas drops `NaN` group keys).  Kept in first-occurrence
order; pandas sorts the keys, which can only affect the order of ties in
the subsequent value sort — a tie order the spec leaves open. -/
def segKeys (data : List Record) : List Cell :=
  ((data.map (fun r => r.segment)).dedup).filter (fun c => c != Cell.empty)

/-- The aggregates of one segment group (count of non-null `Customer ID`,
`NaN`-skipping means, rounded to 2 decimals by `.round(2)`). -/
def rfmRowOf (data : List Record) (s : Cell) : RfmRow :=
  let grp := data.filter (fun r => r.segment == s)
  { segment := s
    customers := grp.countP (fun r => r.customerId != Cell.empty)
    avgCltv := round2 (meanQ (grp.map (fun r => r.cltv)))
    avgProfit := (optMean (grp.map (fun r => r.currentProfit))).map round2
    avgProj6M := (optMean (grp.map (fun r => r.projectedProfit6M))).map round2 }

/-- Descending comparison on `Avg 6M Proj`
(`sort_values('Avg 6M Proj', ascending=False)`, `NaN` sorted last). -/
def proj6Desc (a b : RfmRow) : Prop :=
  match a.avgProj6M, b.avgProj6M with
  | some x, some y => y ≤ x
  | some _, none => True
  | none, some _ => False
  | none, none => True

instance : DecidableRel proj6Desc := fun a b => by
  unfold proj6Desc
  cases a.avgProj6M <;> cases b.avgProj6M <;> infer_instance

/-- `rfm_comparison` (lines 684-692): group the FULL dataset by segment,
aggregate, and sort descending by the mean 6-month projection. -/
def rfm_comparison (data : List Record) : List RfmRow :=
  List.insertionSort proj6Desc ((segKeys data).map (rfmRowOf data))

/-- The segment-analysis view of tab 2 (lines 407-510): overview numbers
and the first 10 rows of the filtered segment in original order. -/
structure SegView : Type where
  customerCount : ℕ
  avgCltv : ℚ
  totalCltv : ℚ
  avgProfit : Option ℚ
  topTen : List Record
deriving DecidableEq

/-- Compute the tab-2 view over the segment-and-grade-filtered subset. -/
def segViewOf (data : List Record) : SegView :=
  { customerCount := data.length
    avgCltv := meanQ (data.map (fun r => r.cltv))
    totalCltv := (data.map (fun r => r.cltv)).sum
    avgProfit := optMean (data.map (fun r => r.currentProfit))
    topTen := data.take 10 }

/-- Everything `main` computes from the dataset (chart/table content;
presentation glue is out of scope). `segTab` is `none` when the selected
segment contains no row with the selected grades — tab 2 then shows only
a warning (lines 404-405) while the other tabs still render. -/
structure MainView : Type where
  gradeFinancials : List GradeRow
  segTab : Option SegView
  rfmComparison : List RfmRow
deriving DecidableEq

/-- Outcome of one run of `main`: the missing-file empty state (lines
177-178), an uncaught exception, the empty-filter warning (lines 219-221),
or a rendered view. -/
inductive RenderResult : Type where
  | missingData
  | raised (msg : String)
  | emptyFilter
  | view (v : MainView)
deriving DecidableEq

/-- Does a record pass the grade multiselect filter
(`df['cltv_grade'].astype(str).isin(selected_grades)`, line 215)? -/
def gradeSelected (selectedGrades : List String) (r : Record) : Bool :=
  selectedGrades.contains (gradeStr r.cltvGrade)

/-- `main` (lines 172-700), restricted to its data computations:
load, filter by the selected grade labels and the selected RFM segment,
and build the per-tab aggregations. -/
def mainRender (input : Option RawTable) (selectedGrades : List String)
    (selectedRfm : String) : RenderResult :=
  match load_and_process_data input with
  | LoadResult.missingFile => RenderResult.missingData
  | LoadResult.raised msg => RenderResult.raised msg
  | LoadResult.ok df =>
    let filtered := df.filter (gradeSelected selectedGrades)
    let segmentDf := df.filter (fun r => r.segment == Cell.str selectedRfm)
    let segmentFiltered := segmentDf.filter (gradeSelected selectedGrades)
    if filtered.isEmpty then RenderResult.emptyFilter
    else
      RenderResult.view
        { gradeFinancials := grade_financials filtered
          segTab :=
            if segmentFiltered.isEmpty then none
            else some (segViewOf segmentFiltered)
          rfmComparison := rfm_comparison df }

/-- The rendered view of a `mainRender` outcome, if any. -/
def viewOf : RenderResult → Option MainView
  | RenderResult.view v => some v
  | _ => none

/-- The standard header of `final_cltv_segmentation.csv`. -/
def stdHeader : List String :=
  ["Customer ID", "cltv", "expected_purc_3_month", "expected_purc_6_month",
   "expected_average_profit", "monetary", "frequency", "segment"]

/-- A fully populated customer row with the given id, cltv cell, purchase
expectations, average profit and segment. -/
def mkRow (id : Cell) (cl : Cell) (p3 p6 eap : ℚ) (seg : Cell) : Row :=
  [("Customer ID", id), ("cltv", cl),
   ("expected_purc_3_month", Cell.num p3),
   ("expected_purc_6_month", Cell.num p6),
   ("expected_average_profit", Cell.num eap),
   ("monetary", Cell.num 10), ("frequency", Cell.num 2), ("segment", seg)]

/-- Ten customers with distinct cltv 1..10. -/
def exTableMain : RawTable :=
  { header := stdHeader
    rows :=
      [mkRow (Cell.num 1) (Cell.num 1) 1 2 3 (Cell.str "Champions"),
       mkRow (Cell.num 2) (Cell.num 2) 1 2 3 (Cell.str "Champions"),
       mkRow (Cell.num 3) (Cell.num 3) 1 2 3 (Cell.str "At Risk"),
       mkRow (Cell.num 4) (Cell.num 4) 1 2 3 (Cell.str "At Risk"),
       mkRow (Cell.num 5) (Cell.num 5) 1 2 3 (Cell.str "Promising"),
       mkRow (Cell.num 6) (Cell.num 6) 1 2 3 (Cell.str "Promising"),
       mkRow (Cell.num 7) (Cell.num 7) 1 2 3 (Cell.str "Hibernating"),
       mkRow (Cell.num 8) (Cell.num 8) 1 2 3 (Cell.str "Hibernating"),
       mkRow (Cell.num 9) (Cell.num 9) 1 2 3 (Cell.str "Champions"),
       mkRow (Cell.num 10) (Cell.num 10) 1 2 3 (Cell.str "Champions")] }

/-- The spec’s example input: rows with cltv 100, missing, 50. -/
def exTableDrop : RawTable :=
  { header := stdHeader
    rows :=
      [mkRow (Cell.num 1) (Cell.num 100) 1 2 3 (Cell.str "Champions"),
       mkRow (Cell.num 2) Cell.empty 1 2 3 (Cell.str "At Risk"),
       mkRow (Cell.num 3) (Cell.num 50) 1 2 3 (Cell.str "Promising")] }

/-- Three customers sharing one cltv value: all five quantile edges
coincide. -/
def exTableDup : RawTable :=
  { header := stdHeader
    rows :=
      [mkRow (Cell.num 1) (Cell.num 5) 1 2 3 (Cell.str "Champions"),
       mkRow (Cell.num 2) (Cell.num 5) 1 2 3 (Cell.str "At Risk"),
       mkRow (Cell.num 3) (Cell.num 5) 1 2 3 (Cell.str "Promising")] }

/-- A well-formed customer file without the `cltv` column. -/
def exTableNoCltv : RawTable :=
  { header := ["Customer ID", "segment"]
    rows := [[("Customer ID", Cell.num 1), ("segment", Cell.str "Champions")]] }

/-- Two customers of one segment whose cltv puts them in grades D and A. -/
def exTableTwo : RawTable :=
  { header := stdHeader
    rows :=
      [mkRow (Cell.num 1) (Cell.num 50) 1 2 3 (Cell.str "Champions"),
       mkRow (Cell.num 2) (Cell.num 100) 1 2 5 (Cell.str "Champions")] }

/-- Two customers, the first with a missing `Customer ID` cell. -/
def exTableNullId : RawTable :=
  { header := stdHeader
    rows :=
      [mkRow Cell.empty (Cell.num 50) 1 2 3 (Cell.str "Champions"),
       mkRow (Cell.num 2) (Cell.num 100) 1 2 5 (Cell.str "Champions")] }

example : (loadedRecords (some exTableDrop)).length = 2 := by
  with_unfolding_all decide

example : (loadedRecords (some exTableDrop)).map (fun r => r.cltv) = [100, 50] := by
  with_unfolding_all decide

example : load_and_process_data (some exTableDup) =
    LoadResult.raised
      "ValueError: Bin labels must be one fewer than the number of bin edges" := by
  with_unfolding_all decide

example : load_and_process_data (some exTableNoCltv) =
    LoadResult.raised "KeyError: cltv" := by
  with_unfolding_all decide

example : (loadedRecords (some exTableMain)).map (fun r => r.cltvGrade) =
    [some Grade.D, some Grade.D, some Grade.D, some Grade.D, some Grade.C,
     some Grade.C, some Grade.C, some Grade.B, some Grade.B, some Grade.A] := by
  with_unfolding_all decide

/-! ### Facts about sorting and quantiles -/

theorem sortQ_sorted (xs : List ℚ) : (sortQ xs).Sorted (· ≤ ·) :=
  List.sorted_insertionSort _ xs

theorem sortQ_perm (xs : List ℚ) : (sortQ xs).Perm xs :=
  List.perm_insertionSort _ xs

theorem sortQ_length (xs : List ℚ) : (sortQ xs).length = xs.length :=
  (sortQ_perm xs).length_eq

theorem sortQ_countP (b : ℚ → Bool) (xs : List ℚ) :
    (sortQ xs).countP b = xs.countP b :=
  (sortQ_perm xs).countP_eq b

theorem sortQ_mem {x : ℚ} {xs : List ℚ} : x ∈ sortQ xs ↔ x ∈ xs :=
  (sortQ_perm xs).mem_iff

/-- In a sorted list, entries are monotone in the index. -/
theorem sorted_getD_mono {s : List ℚ} (hs : s.Sorted (· ≤ ·)) {i j : ℕ}
    (hij : i ≤ j) (hj : j < s.length) : s.getD i 0 ≤ s.getD j 0 := by
  have hi : i < s.length := lt_of_le_of_lt hij hj
  rw [List.getD_eq_getElem s 0 hi, List.getD_eq_getElem s 0 hj]
  rcases Nat.lt_or_ge i j with hlt | hge
  · exact List.pairwise_iff_getElem.mp hs i j hi hj hlt
  · have hij2 : i = j := Nat.le_antisymm hij hge
    subst hij2
    exact le_refl _

/-- In a sorted list, a downward-closed predicate holds exactly on the
prefix of length `countP`. -/
theorem sorted_countP_iff {b : ℚ → Bool}
    (hmono : ∀ x y : ℚ, x ≤ y → b y = true → b x = true) (s : List ℚ) :
    s.Sorted (· ≤ ·) → ∀ j, j < s.length →
      (b (s.getD j 0) = true ↔ j < s.countP b) := by
  induction s with
  | nil =>
    intro _ j hj
    exact absurd hj (by simp)
  | cons a t ih =>
    intro hs j hj
    rcases List.sorted_cons.mp hs with ⟨ha, ht⟩
    by_cases hba : b a = true
    · cases j with
      | zero =>
        simp only [List.getD_cons_zero, List.countP_cons, hba, if_true]
        constructor
        · intro _
          omega
        · intro _
          exact trivial
      | succ k =>
        have hk : k < t.length := by
          simpa [List.length_cons] using hj
        have hih := ih ht k hk
        simp only [List.getD_cons_succ, List.countP_cons, hba, if_true]
        rw [hih]
        omega
    · have ht0 : t.countP b = 0 := by
        rw [List.countP_eq_zero]
        intro y hy hby
        exact hba (hmono a y (ha y hy) hby)
      have htot : (a :: t).countP b = 0 := by
        simp [List.countP_cons, ht0, hba]
      rw [htot]
      constructor
      · intro hb
        exfalso
        cases j with
        | zero =>
          exact hba (by simpa using hb)
        | succ k =>
          have hk : k < t.length := by
            simpa [List.length_cons] using hj
          have hmem : t.getD k 0 ∈ t := by
            rw [List.getD_eq_getElem t 0 hk]
            exact List.getElem_mem hk
          exact hba (hmono a _ (ha _ hmem) (by simpa using hb))
      · intro hcontra
        exact absurd hcontra (Nat.not_lt_zero j)

/-- Cast of the clamped floor of a nonnegative rational. -/
theorem toNat_floor_cast {h : ℚ} (h0 : 0 ≤ h) :
    (((⌊h⌋).toNat : ℕ) : ℚ) = ((⌊h⌋ : ℤ) : ℚ) := by
  have hfl := Int.toNat_of_nonneg (Int.floor_nonneg.mpr h0)
  exact_mod_cast congrArg (fun z : ℤ => (z : ℚ)) hfl

/-- Interpolation at a nonnegative fractional index is at least the entry
at the floored index. -/
theorem interpAt_ge_left {s : List ℚ} (hs : s.Sorted (· ≤ ·)) {h : ℚ}
    (h0 : 0 ≤ h) (hi : (⌊h⌋).toNat < s.length) :
    s.getD (⌊h⌋).toNat 0 ≤ interpAt s h := by
  unfold interpAt
  have hγ : 0 ≤ h - (((⌊h⌋).toNat : ℕ) : ℚ) := by
    rw [toNat_floor_cast h0]
    have := Int.floor_le h
    linarith
  by_cases hi1 : (⌊h⌋).toNat + 1 < s.length
  · have hab : s.getD (⌊h⌋).toNat 0 ≤
        s.getD ((⌊h⌋).toNat + 1) (s.getD (⌊h⌋).toNat 0) := by
      rw [List.getD_eq_getElem s _ hi, List.getD_eq_getElem s _ hi1]
      exact List.pairwise_iff_getElem.mp hs _ _ hi hi1 (Nat.lt_succ_self _)
    nlinarith [mul_nonneg hγ (sub_nonneg.mpr hab)]
  · have hnone : s.getD ((⌊h⌋).toNat + 1) (s.getD (⌊h⌋).toNat 0) =
        s.getD (⌊h⌋).toNat 0 := by
      rw [List.getD_eq_getElem?_getD]
      rw [List.getElem?_eq_none (by omega)]
      rfl
    rw [hnone]
    simp

/-- Interpolation at an index strictly left of a boundary position `d`
whose entry is `v` and whose predecessor entry is strictly below `v`
stays strictly below `v`. -/
theorem interpAt_lt_of_boundary {s : List ℚ} (hs : s.Sorted (· ≤ ·))
    {h v : ℚ} {d : ℕ} (h0 : 0 ≤ h) (hd : d < s.length) (hd1 : 1 ≤ d)
    (hhd : h < (d : ℚ)) (hvd : s.getD d 0 = v)
    (hprev : s.getD (d - 1) 0 < v) :
    interpAt s h < v := by
  unfold interpAt
  have hicast : (((⌊h⌋).toNat : ℕ) : ℚ) = ((⌊h⌋ : ℤ) : ℚ) := toNat_floor_cast h0
  have hγ0 : 0 ≤ h - (((⌊h⌋).toNat : ℕ) : ℚ) := by
    rw [hicast]
    linarith [Int.floor_le h]
  have hγ1 : h - (((⌊h⌋).toNat : ℕ) : ℚ) < 1 := by
    rw [hicast]
    linarith [Int.lt_floor_add_one h]
  have hid : (⌊h⌋).toNat < d := by
    have hfl : ⌊h⌋ < (d : ℤ) := Int.floor_lt.mpr (by exact_mod_cast hhd)
    exact (Int.toNat_lt (Int.floor_nonneg.mpr h0)).mpr hfl
  have hi : (⌊h⌋).toNat < s.length := lt_trans hid hd
  have hi1 : (⌊h⌋).toNat + 1 < s.length := by omega
  rcases Nat.lt_or_ge ((⌊h⌋).toNat + 1) d with hlt | hge
  · have hAB : s.getD (⌊h⌋).toNat 0 ≤
        s.getD ((⌊h⌋).toNat + 1) (s.getD (⌊h⌋).toNat 0) := by
      rw [List.getD_eq_getElem s _ hi, List.getD_eq_getElem s _ hi1]
      exact List.pairwise_iff_getElem.mp hs _ _ hi hi1 (Nat.lt_succ_self _)
    have hBd : s.getD ((⌊h⌋).toNat + 1) (s.getD (⌊h⌋).toNat 0) ≤
        s.getD (d - 1) 0 := by
      have hd1lt : d - 1 < s.length := by omega
      rw [List.getD_eq_getElem s _ hi1, List.getD_eq_getElem s 0 hd1lt]
      rcases Nat.lt_or_ge ((⌊h⌋).toNat + 1) (d - 1) with hx | hx
      · exact List.pairwise_iff_getElem.mp hs _ _ hi1 hd1lt hx
      · have hxx : (⌊h⌋).toNat + 1 = d - 1 := by omega
        simp [hxx]
    have hmul : (h - (((⌊h⌋).toNat : ℕ) : ℚ)) *
        (s.getD ((⌊h⌋).toNat + 1) (s.getD (⌊h⌋).toNat 0) -
          s.getD (⌊h⌋).toNat 0) ≤
        1 * (s.getD ((⌊h⌋).toNat + 1) (s.getD (⌊h⌋).toNat 0) -
          s.getD (⌊h⌋).toNat 0) :=
      mul_le_mul_of_nonneg_right (le_of_lt hγ1) (sub_nonneg.mpr hAB)
    linarith
  · have hieq : (⌊h⌋).toNat + 1 = d := by omega
    have hA : s.getD (⌊h⌋).toNat 0 = s.getD (d - 1) 0 := by
      have hxx : (⌊h⌋).toNat = d - 1 := by omega
      rw [hxx]
    have hB : s.getD ((⌊h⌋).toNat + 1) (s.getD (⌊h⌋).toNat 0) = v := by
      rw [hieq]
      rw [List.getD_eq_getElem s _ hd]
      rw [List.getD_eq_getElem s 0 hd] at hvd
      exact hvd
    rw [hB]
    have hAv : s.getD (⌊h⌋).toNat 0 < v := by
      rw [hA]
      exact hprev
    nlinarith [mul_pos (by linarith : (0:ℚ) < 1 - (h - (((⌊h⌋).toNat : ℕ) : ℚ)))
      (by linarith : (0:ℚ) < v - s.getD (⌊h⌋).toNat 0)]

/-- If at most a fraction `p < 1` of the values are `≤ v` (for `v` a
member), then `v` lies at or below the `p`-quantile. -/
theorem le_quantile_of_countP_le {xs : List ℚ} {v p : ℚ} (hv : v ∈ xs)
    (hp0 : 0 ≤ p) (hp1 : p < 1)
    (hc : (xs.countP (fun x => decide (x ≤ v)) : ℚ) ≤ p * (xs.length : ℚ)) :
    v ≤ quantile xs p := by
  have hmono : ∀ x y : ℚ, x ≤ y → decide (y ≤ v) = true →
      decide (x ≤ v) = true := by
    intro x y hxy hy
    simp only [decide_eq_true_eq] at hy ⊢
    exact le_trans hxy hy
  have hsort := sortQ_sorted xs
  have hlen : (sortQ xs).length = xs.length := sortQ_length xs
  obtain ⟨k, hk, hkv⟩ := List.getElem_of_mem (sortQ_mem.mpr hv)
  have hkd : (sortQ xs).getD k 0 = v := by
    rw [List.getD_eq_getElem (sortQ xs) 0 hk]
    exact hkv
  have hkc : k < (sortQ xs).countP (fun x => decide (x ≤ v)) := by
    refine (sorted_countP_iff hmono (sortQ xs) hsort k hk).mp ?_
    rw [hkd]
    simp
  rw [sortQ_countP] at hkc
  have hn1 : 1 ≤ xs.length := List.length_pos_of_mem hv
  have hn1Q : (1 : ℚ) ≤ (xs.length : ℚ) := by exact_mod_cast hn1
  have hexp : p * ((xs.length : ℚ) - 1) = p * (xs.length : ℚ) - p := by ring
  have hh0 : 0 ≤ p * ((xs.length : ℚ) - 1) :=
    mul_nonneg hp0 (by linarith)
  have hkh : (k : ℚ) < p * ((xs.length : ℚ) - 1) := by
    have hk1 : (k : ℚ) + 1 ≤ (xs.countP (fun x => decide (x ≤ v)) : ℚ) := by
      exact_mod_cast Nat.succ_le_of_lt hkc
    rw [hexp]
    linarith
  have hfl0 : 0 ≤ ⌊p * ((xs.length : ℚ) - 1)⌋ := Int.floor_nonneg.mpr hh0
  have hki : k ≤ (⌊p * ((xs.length : ℚ) - 1)⌋).toNat := by
    rw [Int.le_toNat hfl0]
    exact Int.le_floor.mpr (le_of_lt (by exact_mod_cast hkh))
  have hilen : (⌊p * ((xs.length : ℚ) - 1)⌋).toNat < (sortQ xs).length := by
    rw [hlen]
    have h1 : (((⌊p * ((xs.length : ℚ) - 1)⌋).toNat : ℕ) : ℚ) ≤
        p * ((xs.length : ℚ) - 1) := by
      rw [toNat_floor_cast hh0]
      exact Int.floor_le _
    have h2 : p * ((xs.length : ℚ) - 1) ≤ (xs.length : ℚ) - 1 := by
      nlinarith
    have h3 : (((⌊p * ((xs.length : ℚ) - 1)⌋).toNat : ℕ) : ℚ) <
        (xs.length : ℚ) := by linarith
    exact_mod_cast h3
  have hvi : v ≤ (sortQ xs).getD (⌊p * ((xs.length : ℚ) - 1)⌋).toNat 0 := by
    rw [← hkd]
    exact sorted_getD_mono hsort hki hilen
  have hint := interpAt_ge_left hsort hh0 hilen
  unfold quantile
  linarith

/-- If at least a fraction `p > 0` of the values are `< v` (for `v` a
member), then `v` lies strictly above the `p`-quantile. -/
theorem quantile_lt_of_le_countP {xs : List ℚ} {v p : ℚ} (hv : v ∈ xs)
    (hp0 : 0 < p)
    (hc : p * (xs.length : ℚ) ≤ (xs.countP (fun x => decide (x < v)) : ℚ)) :
    quantile xs p < v := by
  have hmono : ∀ x y : ℚ, x ≤ y → decide (y < v) = true →
      decide (x < v) = true := by
    intro x y hxy hy
    simp only [decide_eq_true_eq] at hy ⊢
    exact lt_of_le_of_lt hxy hy
  have hsort := sortQ_sorted xs
  have hlen : (sortQ xs).length = xs.length := sortQ_length xs
  obtain ⟨k, hk, hkv⟩ := List.getElem_of_mem (sortQ_mem.mpr hv)
  have hkd : (sortQ xs).getD k 0 = v := by
    rw [List.getD_eq_getElem (sortQ xs) 0 hk]
    exact hkv
  have hcs : (sortQ xs).countP (fun x => decide (x < v)) =
      xs.countP (fun x => decide (x < v)) := sortQ_countP _ xs
  have hdk : xs.countP (fun x => decide (x < v)) ≤ k := by
    by_contra hcon
    have hklt : k < (sortQ xs).countP (fun x => decide (x < v)) := by
      rw [hcs]
      omega
    have := (sorted_countP_iff hmono (sortQ xs) hsort k hk).mpr hklt
    rw [hkd] at this
    simp at this
  have hdlen : xs.countP (fun x => decide (x < v)) < (sortQ xs).length :=
    lt_of_le_of_lt hdk hk
  have hn1 : 1 ≤ xs.length := List.length_pos_of_mem hv
  have hn1Q : (1 : ℚ) ≤ (xs.length : ℚ) := by exact_mod_cast hn1
  have hd1 : 1 ≤ xs.countP (fun x => decide (x < v)) := by
    have hpos : (0 : ℚ) < p * (xs.length : ℚ) :=
      mul_pos hp0 (by linarith)
    have : (0 : ℚ) < (xs.countP (fun x => decide (x < v)) : ℚ) :=
      lt_of_lt_of_le hpos hc
    exact_mod_cast this
  have hexp : p * ((xs.length : ℚ) - 1) = p * (xs.length : ℚ) - p := by ring
  have hh0 : 0 ≤ p * ((xs.length : ℚ) - 1) :=
    mul_nonneg (le_of_lt hp0) (by linarith)
  have hhd : p * ((xs.length : ℚ) - 1) <
      ((xs.countP (fun x => decide (x < v)) : ℕ) : ℚ) := by
    rw [hexp]
    linarith
  have hsd : (sortQ xs).getD (xs.countP (fun x => decide (x < v))) 0 = v := by
    have hge : v ≤ (sortQ xs).getD (xs.countP (fun x => decide (x < v))) 0 := by
      have hnot : ¬ ((sortQ xs).getD (xs.countP (fun x => decide (x < v))) 0 < v) := by
        intro hlt
        have hb : (decide ((sortQ xs).getD (xs.countP (fun x => decide (x < v))) 0 < v)) = true := by
          simpa using hlt
        have := (sorted_countP_iff hmono (sortQ xs) hsort _ hdlen).mp hb
        rw [hcs] at this
        omega
      linarith
    have hle : (sortQ xs).getD (xs.countP (fun x => decide (x < v))) 0 ≤
        (sortQ xs).getD k 0 := sorted_getD_mono hsort hdk hk
    rw [hkd] at hle
    linarith
  have hprev : (sortQ xs).getD (xs.countP (fun x => decide (x < v)) - 1) 0 < v := by
    have hj : xs.countP (fun x => decide (x < v)) - 1 < (sortQ xs).length := by
      omega
    have hjc : xs.countP (fun x => decide (x < v)) - 1 <
        (sortQ xs).countP (fun x => decide (x < v)) := by
      rw [hcs]
      omega
    have := (sorted_countP_iff hmono (sortQ xs) hsort _ hj).mpr hjc
    simpa using this
  have := interpAt_lt_of_boundary hsort hh0 hdlen hd1 hhd hsd hprev
  unfold quantile
  exact this

/-- The 0-quantile is a lower bound of the values. -/
theorem quantile_zero_le {xs : List ℚ} {v : ℚ} (hv : v ∈ xs) :
    quantile xs 0 ≤ v := by
  have hsort := sortQ_sorted xs
  obtain ⟨k, hk, hkv⟩ := List.getElem_of_mem (sortQ_mem.mpr hv)
  have hkd : (sortQ xs).getD k 0 = v := by
    rw [List.getD_eq_getElem (sortQ xs) 0 hk]
    exact hkv
  unfold quantile interpAt
  rw [zero_mul, Int.floor_zero, Int.toNat_zero]
  have hmono := sorted_getD_mono hsort (Nat.zero_le k) hk
  rw [hkd] at hmono
  simpa using hmono

/-- The 1-quantile is an upper bound of the values. -/
theorem le_quantile_one {xs : List ℚ} {v : ℚ} (hv : v ∈ xs) :
    v ≤ quantile xs 1 := by
  have hsort := sortQ_sorted xs
  have hlen : (sortQ xs).length = xs.length := sortQ_length xs
  have hn1 : 1 ≤ xs.length := List.length_pos_of_mem hv
  obtain ⟨k, hk, hkv⟩ := List.getElem_of_mem (sortQ_mem.mpr hv)
  have hkd : (sortQ xs).getD k 0 = v := by
    rw [List.getD_eq_getElem (sortQ xs) 0 hk]
    exact hkv
  unfold quantile interpAt
  have hfl : (⌊(1 : ℚ) * ((xs.length : ℚ) - 1)⌋).toNat = xs.length - 1 := by
    have h1 : (1 : ℚ) * ((xs.length : ℚ) - 1) =
        (((xs.length : ℤ) - 1 : ℤ) : ℚ) := by
      push_cast
      ring
    rw [h1, Int.floor_intCast]
    omega
  rw [hfl]
  have hγ : (1 : ℚ) * ((xs.length : ℚ) - 1) -
      ((xs.length - 1 : ℕ) : ℚ) = 0 := by
    have hcast : ((xs.length - 1 : ℕ) : ℚ) = (xs.length : ℚ) - 1 := by
      have hns : (((xs.length - 1 : ℕ)) : ℚ) = ((xs.length : ℕ) : ℚ) - ((1 : ℕ) : ℚ) :=
        Nat.cast_sub hn1
      simpa using hns
    rw [hcast]
    ring
  rw [hγ, zero_mul, add_zero]
  have hmono := sorted_getD_mono hsort
    (show k ≤ xs.length - 1 by omega) (show xs.length - 1 < (sortQ xs).length by omega)
  rw [hkd] at hmono
  exact hmono

/-! ### Structure of a successful load -/

theorem load_ok_out {t : RawTable} {out : List Record}
    (h : load_and_process_data (some t) = LoadResult.ok out) :
    out = loadOutput t := by
  simp only [load_and_process_data] at h
  split_ifs at h
  all_goals simp_all

theorem load_ok_edges {t : RawTable} {out : List Record}
    (h : load_and_process_data (some t) = LoadResult.ok out) :
    (qcutEdges (keptCltvs t)).dedup.length = 5 := by
  simp only [load_and_process_data] at h
  split_ifs at h
  all_goals simp_all

theorem loadOutput_map_cltv (t : RawTable) :
    (loadOutput t).map (fun r => r.cltv) = keptCltvs t := by
  unfold loadOutput keptCltvs
  rw [List.map_map]
  rfl

theorem loadOutput_cltv_mem {t : RawTable} {r : Record}
    (hr : r ∈ loadOutput t) : r.cltv ∈ keptCltvs t := by
  rw [← loadOutput_map_cltv t]
  exact List.mem_map_of_mem _ hr

theorem loadOutput_grade {t : RawTable} {r : Record}
    (hr : r ∈ loadOutput t) :
    r.cltvGrade = qcutLabel (quantile (keptCltvs t) 0)
      (quantile (keptCltvs t) (2/5)) (quantile (keptCltvs t) (7/10))
      (quantile (keptCltvs t) (9/10)) (quantile (keptCltvs t) 1) r.cltv := by
  unfold loadOutput at hr
  obtain ⟨row, hrow, hre⟩ := List.mem_map.mp hr
  subst hre
  rfl

theorem loadOutput_grade_some {t : RawTable} {r : Record}
    (hr : r ∈ loadOutput t) :
    r.cltvGrade = some (gradeOf (quantile (keptCltvs t) (2/5))
      (quantile (keptCltvs t) (7/10)) (quantile (keptCltvs t) (9/10))
      r.cltv) := by
  rw [loadOutput_grade hr]
  unfold qcutLabel
  rw [if_neg]
  push_neg
  exact ⟨quantile_zero_le (loadOutput_cltv_mem hr),
    le_quantile_one (loadOutput_cltv_mem hr)⟩

theorem loadOutput_fields {t : RawTable} {r : Record}
    (hr : r ∈ loadOutput t) :
    r.currentProfit = r.expectedAverageProfit ∧
    r.projectedProfit3M = optMul r.expectedAverageProfit r.expectedPurc3Month ∧
    r.projectedProfit6M = optMul r.expectedAverageProfit r.expectedPurc6Month := by
  unfold loadOutput at hr
  obtain ⟨row, hrow, hre⟩ := List.mem_map.mp hr
  subst hre
  exact ⟨rfl, rfl, rfl⟩

theorem loadOutput_cltv_from_row {t : RawTable} {r : Record}
    (hr : r ∈ loadOutput t) :
    ∃ row ∈ (coerceNumerics t).rows, getNum row "cltv" = some r.cltv := by
  unfold loadOutput at hr
  obtain ⟨row, hrow, hre⟩ := List.mem_map.mp hr
  subst hre
  unfold keptRows at hrow
  have hm := List.mem_filter.mp hrow
  refine ⟨row, hm.1, ?_⟩
  have hsome : (getNum row "cltv").isSome := by simpa using hm.2
  cases hx : getNum row "cltv" with
  | none =>
    rw [hx] at hsome
    simp at hsome
  | some q =>
    have hcl : (mkRecord (quantile (keptCltvs t) 0) (quantile (keptCltvs t) (2/5))
        (quantile (keptCltvs t) (7/10)) (quantile (keptCltvs t) (9/10))
        (quantile (keptCltvs t) 1) row).cltv = (getNum row "cltv").getD 0 := rfl
    rw [hcl, hx]
    rfl

theorem loadOutput_length (t : RawTable) :
    (loadOutput t).length =
      (coerceNumerics t).rows.countP (fun row => (getNum row "cltv").isSome) := by
  unfold loadOutput keptRows
  rw [List.length_map]
  exact (List.countP_eq_length_filter _ _).symm

/-! ### Facts about grade bins -/

theorem gradeOf_eq_D {b1 b2 b3 x : ℚ} (h : x ≤ b1) :
    gradeOf b1 b2 b3 x = Grade.D := by
  unfold gradeOf
  rw [if_pos h]

theorem gradeOf_eq_C {b1 b2 b3 x : ℚ} (h1 : b1 < x) (h2 : x ≤ b2) :
    gradeOf b1 b2 b3 x = Grade.C := by
  unfold gradeOf
  rw [if_neg (not_le.mpr h1), if_pos h2]

theorem gradeOf_eq_B {b1 b2 b3 x : ℚ} (h1 : b1 < x) (h2 : b2 < x)
    (h3 : x ≤ b3) : gradeOf b1 b2 b3 x = Grade.B := by
  unfold gradeOf
  rw [if_neg (not_le.mpr h1), if_neg (not_le.mpr h2), if_pos h3]

theorem gradeOf_eq_A {b1 b2 b3 x : ℚ} (h1 : b1 < x) (h2 : b2 < x)
    (h3 : b3 < x) : gradeOf b1 b2 b3 x = Grade.A := by
  unfold gradeOf
  rw [if_neg (not_le.mpr h1), if_neg (not_le.mpr h2), if_neg (not_le.mpr h3)]

theorem gradeOf_rank_mono {b1 b2 b3 x y : ℚ} (hxy : x ≤ y) :
    (gradeOf b1 b2 b3 x).rank ≤ (gradeOf b1 b2 b3 y).rank := by
  unfold gradeOf
  split_ifs <;> simp only [Grade.rank] <;> first | omega | linarith

/-! ### Counting records by grade -/

theorem four_way_grade_count (l : List Record)
    (hl : ∀ r ∈ l, (r.cltvGrade).isSome) :
    l.countP (fun r => r.cltvGrade == some Grade.D) +
      l.countP (fun r => r.cltvGrade == some Grade.C) +
      l.countP (fun r => r.cltvGrade == some Grade.B) +
      l.countP (fun r => r.cltvGrade == some Grade.A) = l.length := by
  induction l with
  | nil => simp
  | cons r t ih =>
    have hr := hl r (List.mem_cons_self r t)
    have ht := ih (fun x hx => hl x (List.mem_cons_of_mem r hx))
    rcases Option.isSome_iff_exists.mp hr with ⟨g, hg⟩
    cases g <;> simp only [List.countP_cons, hg, List.length_cons,
      beq_iff_eq, Option.some.injEq, reduceCtorEq, if_true, if_false] <;>
      simp <;> omega

theorem sum_map_filter_eq {α : Type} (L : List α) (pr : α → Bool) (f : α → ℕ)
    (hz : ∀ a ∈ L, pr a = false → f a = 0) :
    ((L.filter pr).map f).sum = (L.map f).sum := by
  induction L with
  | nil => rfl
  | cons a T ih =>
    have hT : ∀ x ∈ T, pr x = false → f x = 0 :=
      fun x hx h0 => hz x (List.mem_cons_of_mem a hx) h0
    by_cases hpa : pr a = true
    · simp [List.filter_cons, hpa, ih hT]
    · have hf0 : f a = 0 := hz a (List.mem_cons_self a T) (by simpa using hpa)
      simp [List.filter_cons, hpa, hf0, ih hT]

theorem grade_financials_count_sum {l : List Record}
    (hg : ∀ r ∈ l, (r.cltvGrade).isSome)
    (hid : ∀ r ∈ l, r.customerId ≠ Cell.empty) :
    ((grade_financials l).map (fun row => row.customerCount)).sum = l.length := by
  unfold grade_financials
  rw [List.map_map]
  have hrow : ∀ g : Grade,
      ((fun row => row.customerCount) ∘ gradeRowOf l) g =
        l.countP (fun r => r.cltvGrade == some g) := by
    intro g
    show (gradeRowOf l g).customerCount = l.countP (fun r => r.cltvGrade == some g)
    unfold gradeRowOf
    have hall : (l.filter (fun r => r.cltvGrade == some g)).countP
        (fun r => r.customerId != Cell.empty) =
        (l.filter (fun r => r.cltvGrade == some g)).length := by
      rw [List.countP_eq_length]
      intro a ha
      have := hid a (List.mem_filter.mp ha).1
      simpa using this
    show (l.filter (fun r => r.cltvGrade == some g)).countP
        (fun r => r.customerId != Cell.empty) = _
    rw [hall, ← List.countP_eq_length_filter]
  calc ((observedGrades l).map
      ((fun row => row.customerCount) ∘ gradeRowOf l)).sum
      = ((observedGrades l).map
          (fun g => l.countP (fun r => r.cltvGrade == some g))).sum := by
        rw [List.map_congr_left (fun g _ => hrow g)]
    _ = (([Grade.D, Grade.C, Grade.B, Grade.A]).map
          (fun g => l.countP (fun r => r.cltvGrade == some g))).sum := by
        unfold observedGrades
        apply sum_map_filter_eq
        intro g _ hobs
        rw [List.countP_eq_zero]
        intro a ha hgr
        have : ∃ x ∈ l, (x.cltvGrade == some g) = true := ⟨a, ha, hgr⟩
        rw [← List.any_eq_true] at this
        rw [hobs] at this
        exact Bool.false_ne_true this
    _ = l.length := by
        have h4 := four_way_grade_count l hg
        simp only [List.map_cons, List.map_nil, List.sum_cons, List.sum_nil]
        omega

/-- A placeholder record (used only as a `getD` default at in-range
indices in concrete statements). -/
def blankRecord : Record :=
  { customerId := Cell.empty
    segment := Cell.empty
    cltv := 0
    expectedPurc3Month := none
    expectedPurc6Month := none
    expectedAverageProfit := none
    monetary := none
    frequency := none
    cltvGrade := none
    currentProfit := none
    projectedProfit3M := none
    projectedProfit6M := none }

/-- C1: every record a successful load retains is graded by the quantile
cut of `cltv` at breakpoints [0, 0.4, 0.7, 0.9, 1.0] computed over the
entire retained record set — the breakpoints are a function of the full
dataset distribution only, and records of any filtered subset keep these
full-dataset grades; a record weakly below at most 40% of the dataset
gets grade D, one strictly above at least 40% and weakly below at most
70% gets C, one strictly above at least 70% and weakly below at most 90%
gets B, and one strictly above at least 90% gets A. -/
theorem c1_cltv_grade_full_dataset_quantile (t : RawTable)
    (out : List Record)
    (h : load_and_process_data (some t) = LoadResult.ok out) :
    (∀ r ∈ out, r.cltvGrade = some (gradeOf
        (quantile (out.map (fun x => x.cltv)) (2/5))
        (quantile (out.map (fun x => x.cltv)) (7/10))
        (quantile (out.map (fun x => x.cltv)) (9/10)) r.cltv)) ∧
    (∀ (p : Record → Bool), ∀ r ∈ out.filter p,
        r.cltvGrade = some (gradeOf
          (quantile (out.map (fun x => x.cltv)) (2/5))
          (quantile (out.map (fun x => x.cltv)) (7/10))
          (quantile (out.map (fun x => x.cltv)) (9/10)) r.cltv)) ∧
    (∀ r ∈ out,
        ((out.countP (fun x => decide (x.cltv ≤ r.cltv)) : ℚ) ≤
            2/5 * (out.length : ℚ) → r.cltvGrade = some Grade.D) ∧
        ((2/5 * (out.length : ℚ) ≤
            (out.countP (fun x => decide (x.cltv < r.cltv)) : ℚ) ∧
          (out.countP (fun x => decide (x.cltv ≤ r.cltv)) : ℚ) ≤
            7/10 * (out.length : ℚ)) → r.cltvGrade = some Grade.C) ∧
        ((7/10 * (out.length : ℚ) ≤
            (out.countP (fun x => decide (x.cltv < r.cltv)) : ℚ) ∧
          (out.countP (fun x => decide (x.cltv ≤ r.cltv)) : ℚ) ≤
            9/10 * (out.length : ℚ)) → r.cltvGrade = some Grade.B) ∧
        (9/10 * (out.length : ℚ) ≤
            (out.countP (fun x => decide (x.cltv < r.cltv)) : ℚ) →
          r.cltvGrade = some Grade.A)) := by
  obtain rfl := load_ok_out h
  have hmapc := loadOutput_map_cltv t
  have hlen : (loadOutput t).length = (keptCltvs t).length := by
    rw [← hmapc, List.length_map]
  have hcle : ∀ v : ℚ, (loadOutput t).countP (fun x => decide (x.cltv ≤ v)) =
      (keptCltvs t).countP (fun q => decide (q ≤ v)) := by
    intro v
    rw [← hmapc, List.countP_map]
    rfl
  have hclt : ∀ v : ℚ, (loadOutput t).countP (fun x => decide (x.cltv < v)) =
      (keptCltvs t).countP (fun q => decide (q < v)) := by
    intro v
    rw [← hmapc, List.countP_map]
    rfl
  rw [hmapc]
  refine ⟨fun r hr => loadOutput_grade_some hr,
    fun p r hrf => loadOutput_grade_some (List.mem_filter.mp hrf).1, ?_⟩
  intro r hr
  have hv : r.cltv ∈ keptCltvs t := loadOutput_cltv_mem hr
  have hn0 : (0 : ℚ) ≤ ((keptCltvs t).length : ℚ) := by positivity
  refine ⟨?_, ?_, ?_, ?_⟩
  · intro hc
    rw [hcle, hlen] at hc
    have hb1 : r.cltv ≤ quantile (keptCltvs t) (2/5) :=
      le_quantile_of_countP_le hv (by norm_num) (by norm_num) (by linarith)
    rw [loadOutput_grade_some hr, gradeOf_eq_D hb1]
  · rintro ⟨hc1, hc2⟩
    rw [hclt, hlen] at hc1
    rw [hcle, hlen] at hc2
    have hlt1 : quantile (keptCltvs t) (2/5) < r.cltv :=
      quantile_lt_of_le_countP hv (by norm_num) (by linarith)
    have hle2 : r.cltv ≤ quantile (keptCltvs t) (7/10) :=
      le_quantile_of_countP_le hv (by norm_num) (by norm_num) (by linarith)
    rw [loadOutput_grade_some hr, gradeOf_eq_C hlt1 hle2]
  · rintro ⟨hc1, hc2⟩
    rw [hclt, hlen] at hc1
    rw [hcle, hlen] at hc2
    have hlt1 : quantile (keptCltvs t) (2/5) < r.cltv :=
      quantile_lt_of_le_countP hv (by norm_num) (by linarith)
    have hlt2 : quantile (keptCltvs t) (7/10) < r.cltv :=
      quantile_lt_of_le_countP hv (by norm_num) (by linarith)
    have hle3 : r.cltv ≤ quantile (keptCltvs t) (9/10) :=
      le_quantile_of_countP_le hv (by norm_num) (by norm_num) (by linarith)
    rw [loadOutput_grade_some hr, gradeOf_eq_B hlt1 hlt2 hle3]
  · intro hc
    rw [hclt, hlen] at hc
    have hlt1 : quantile (keptCltvs t) (2/5) < r.cltv :=
      quantile_lt_of_le_countP hv (by norm_num) (by linarith)
    have hlt2 : quantile (keptCltvs t) (7/10) < r.cltv :=
      quantile_lt_of_le_countP hv (by norm_num) (by linarith)
    have hlt3 : quantile (keptCltvs t) (9/10) < r.cltv :=
      quantile_lt_of_le_countP hv (by norm_num) (by linarith)
    rw [loadOutput_grade_some hr, gradeOf_eq_A hlt1 hlt2 hlt3]

theorem c1_cltv_grade_full_dataset_quantile_witness :
    load_and_process_data (some exTableMain) =
      LoadResult.ok (loadedRecords (some exTableMain)) ∧
    ((loadedRecords (some exTableMain)).getD 0 blankRecord).cltvGrade =
      some Grade.D ∧
    ((loadedRecords (some exTableMain)).getD 9 blankRecord).cltvGrade =
      some Grade.A := by
  have h := c1_cltv_grade_full_dataset_quantile exTableMain
    (loadedRecords (some exTableMain)) (by with_unfolding_all decide)
  refine ⟨by with_unfolding_all decide, ?_, ?_⟩
  · exact (h.2.2 ((loadedRecords (some exTableMain)).getD 0 blankRecord)
      (by with_unfolding_all decide)).1 (by with_unfolding_all decide)
  · exact (h.2.2 ((loadedRecords (some exTableMain)).getD 9 blankRecord)
      (by with_unfolding_all decide)).2.2.2 (by with_unfolding_all decide)

/-- C2 (code bug): when two or more quantile breakpoints of the `cltv`
distribution coincide, the grading step does NOT merge labels and keep
going — `pd.qcut` first deduplicates the edges (`duplicates='drop'`) and
then finds that the 4 fixed labels no longer match the reduced edge count
and raises `ValueError`, which `load_and_process_data` does not catch.
Evaluated here on a dataset whose cltv values are all equal, so that all
five edges coincide. -/
theorem c2_duplicate_edges_raise_value_error :
    qcutEdges (keptCltvs exTableDup) = [5, 5, 5, 5, 5] ∧
    load_and_process_data (some exTableDup) =
      LoadResult.raised
        "ValueError: Bin labels must be one fewer than the number of bin edges" := by
  constructor
  · with_unfolding_all decide
  · with_unfolding_all decide

/-- C3: for every retained record, `Current Profit` equals
`expected_average_profit`, and the 3- and 6-month projections are the
row-local products with `expected_purc_3_month` / `expected_purc_6_month`
(missing factors propagate to a missing product). -/
theorem c3_profit_fields_row_local (t : RawTable) (out : List Record)
    (h : load_and_process_data (some t) = LoadResult.ok out) :
    ∀ r ∈ out,
      r.currentProfit = r.expectedAverageProfit ∧
      r.projectedProfit3M = optMul r.expectedAverageProfit r.expectedPurc3Month ∧
      r.projectedProfit6M = optMul r.expectedAverageProfit r.expectedPurc6Month := by
  obtain rfl := load_ok_out h
  exact fun r hr => loadOutput_fields hr

theorem c3_profit_fields_row_local_witness :
    load_and_process_data (some exTableMain) =
      LoadResult.ok (loadedRecords (some exTableMain)) ∧
    ((loadedRecords (some exTableMain)).getD 0 blankRecord).projectedProfit3M =
      some 3 ∧
    ((loadedRecords (some exTableMain)).getD 0 blankRecord).projectedProfit6M =
      some 6 := by
  have h := c3_profit_fields_row_local exTableMain
    (loadedRecords (some exTableMain)) (by with_unfolding_all decide)
  have hf := h ((loadedRecords (some exTableMain)).getD 0 blankRecord)
    (by with_unfolding_all decide)
  refine ⟨by with_unfolding_all decide, ?_, ?_⟩
  · rw [hf.2.1]
    with_unfolding_all decide
  · rw [hf.2.2]
    with_unfolding_all decide

/-- C4: a successful load retains exactly the rows whose (coerced) `cltv`
cell holds an actual number — every retained record's `cltv` comes from a
parseable cell, and the number of retained records equals the number of
input rows with a parseable `cltv`.  On the spec's example (rows with
cltv 100, missing, 50) exactly the two defined rows survive. -/
theorem c4_missing_cltv_rows_dropped :
    (∀ (t : RawTable) (out : List Record),
      load_and_process_data (some t) = LoadResult.ok out →
      out.length =
        (coerceNumerics t).rows.countP (fun row => (getNum row "cltv").isSome) ∧
      ∀ r ∈ out, ∃ row ∈ (coerceNumerics t).rows,
        getNum row "cltv" = some r.cltv) ∧
    (loadedRecords (some exTableDrop)).length = 2 ∧
    (loadedRecords (some exTableDrop)).map (fun r => r.cltv) = [100, 50] := by
  refine ⟨?_, by with_unfolding_all decide, by with_unfolding_all decide⟩
  intro t out h
  obtain rfl := load_ok_out h
  exact ⟨loadOutput_length t, fun r hr => loadOutput_cltv_from_row hr⟩

theorem c4_missing_cltv_rows_dropped_witness :
    load_and_process_data (some exTableDrop) =
      LoadResult.ok (loadedRecords (some exTableDrop)) ∧
    (loadedRecords (some exTableDrop)).length =
      (coerceNumerics exTableDrop).rows.countP
        (fun row => (getNum row "cltv").isSome) := by
  refine ⟨by with_unfolding_all decide, ?_⟩
  exact (c4_missing_cltv_rows_dropped.1 exTableDrop
    (loadedRecords (some exTableDrop)) (by with_unfolding_all decide)).1

/-- C5: `get_rfm_segment_strategy` returns the loaded mapping's entry when
the segment is a key with a truthy (for strings: non-empty) value;
otherwise it falls back to the static default table — the fixed entry for
one of the 10 known segment names, or the generated string
"Develop strategic approach for SEG segment." for an unknown one.  The
three concrete spec examples are included. -/
theorem c5_resolve_strategy :
    (∀ (seg : String) (ai : List (Cell × Cell)) (kv : Cell × Cell),
        ai.find? (fun p2 => p2.1 == Cell.str seg) = some kv →
        kv.2.truthy = true →
        get_rfm_segment_strategy seg ai = kv.2) ∧
    (∀ (seg : String) (ai : List (Cell × Cell)) (kv : Cell × Cell),
        ai.find? (fun p2 => p2.1 == Cell.str seg) = some kv →
        kv.2.truthy = false →
        get_rfm_segment_strategy seg ai = rfm_default_strategy seg) ∧
    (∀ (seg : String) (ai : List (Cell × Cell)),
        ai.find? (fun p2 => p2.1 == Cell.str seg) = none →
        get_rfm_segment_strategy seg ai = rfm_default_strategy seg) ∧
    (∀ (seg : String) (d : String × String),
        default_strategies.find? (fun p2 => p2.1 == seg) = some d →
        rfm_default_strategy seg = Cell.str d.2) ∧
    (∀ seg : String,
        default_strategies.find? (fun p2 => p2.1 == seg) = none →
        rfm_default_strategy seg =
          Cell.str ("Develop strategic approach for " ++ seg ++ " segment.")) ∧
    get_rfm_segment_strategy "Champions" [] =
      Cell.str "VIP Retention & Upselling: Maximize lifetime value through exclusive programs, premium rewards, and strategic cross-selling opportunities." ∧
    get_rfm_segment_strategy "Champions" [(Cell.str "Champions", Cell.str "X")] =
      Cell.str "X" ∧
    get_rfm_segment_strategy "UnknownSeg" [] =
      Cell.str "Develop strategic approach for UnknownSeg segment." := by
  refine ⟨?_, ?_, ?_, ?_, ?_, by with_unfolding_all decide,
    by with_unfolding_all decide, by with_unfolding_all decide⟩
  · intro seg ai kv hfind htr
    unfold get_rfm_segment_strategy
    rw [hfind]
    show (if kv.2.truthy = true then kv.2 else rfm_default_strategy seg) = kv.2
    rw [if_pos htr]
  · intro seg ai kv hfind htr
    unfold get_rfm_segment_strategy
    rw [hfind]
    show (if kv.2.truthy = true then kv.2 else rfm_default_strategy seg) =
      rfm_default_strategy seg
    rw [htr]
    simp
  · intro seg ai hfind
    unfold get_rfm_segment_strategy
    rw [hfind]
  · intro seg d hfind
    unfold rfm_default_strategy
    rw [hfind]
  · intro seg hfind
    unfold rfm_default_strategy
    rw [hfind]

theorem c5_resolve_strategy_witness :
    get_rfm_segment_strategy "Champions"
        [(Cell.str "Champions", Cell.str "X")] = Cell.str "X" ∧
    get_rfm_segment_strategy "Promising" [(Cell.str "Promising", Cell.str "")] =
      rfm_default_strategy "Promising" := by
  constructor
  · exact c5_resolve_strategy.1 "Champions"
      [(Cell.str "Champions", Cell.str "X")]
      (Cell.str "Champions", Cell.str "X")
      (by with_unfolding_all decide) (by with_unfolding_all decide)
  · exact c5_resolve_strategy.2.1 "Promising"
      [(Cell.str "Promising", Cell.str "")]
      (Cell.str "Promising", Cell.str "")
      (by with_unfolding_all decide) (by with_unfolding_all decide)

/-- C7: a missing customer CSV is reported as the distinct missing-input
state (the caught `FileNotFoundError` branch returning `None`, rendered as
a banner) rather than an exception, and a missing strategy CSV makes
`load_ai_strategies` return the empty mapping. -/
theorem c7_missing_files_nonfatal :
    load_and_process_data none = LoadResult.missingFile ∧
    mainRender none [] "" = RenderResult.missingData ∧
    load_ai_strategies none = [] := by
  exact ⟨rfl, rfl, rfl⟩

/-- C10: the loader catches only `FileNotFoundError`; on an existing
customer CSV that lacks the `cltv` column, `df.dropna(subset=['cltv'])`
raises an uncaught `KeyError` (the numeric coercion is guarded by a
column-presence check, the drop is not), so the loader neither returns a
dataset nor the missing-input state. -/
theorem c10_missing_cltv_column_raises :
    load_and_process_data (some exTableNoCltv) =
      LoadResult.raised "KeyError: cltv" := by
  with_unfolding_all decide

/-- One successful run of `main`, spelled out: filter, empty check,
per-tab views. -/
theorem mainRender_ok {t : RawTable} {sel : List String} {rfm : String}
    {df : List Record}
    (hload : load_and_process_data (some t) = LoadResult.ok df) :
    mainRender (some t) sel rfm =
      (if (df.filter (gradeSelected sel)).isEmpty then
        RenderResult.emptyFilter
      else
        RenderResult.view
          { gradeFinancials := grade_financials (df.filter (gradeSelected sel))
            segTab :=
              if ((df.filter (fun r => r.segment == Cell.str rfm)).filter
                  (gradeSelected sel)).isEmpty then none
              else some (segViewOf ((df.filter
                  (fun r => r.segment == Cell.str rfm)).filter
                  (gradeSelected sel)))
            rfmComparison := rfm_comparison df }) := by
  unfold mainRender
  rw [hload]

instance : IsTrans RfmRow proj6Desc where
  trans a b c hab hbc := by
    unfold proj6Desc at hab hbc ⊢
    cases ha : a.avgProj6M <;> cases hb : b.avgProj6M <;>
      cases hc : c.avgProj6M <;>
      (simp only [ha, hb, hc] at hab hbc ⊢; all_goals first | trivial | linarith)

instance : IsTotal RfmRow proj6Desc where
  total a b := by
    unfold proj6Desc
    cases ha : a.avgProj6M <;> cases hb : b.avgProj6M <;>
      simp only [ha, hb] <;>
      first
        | exact Or.inl trivial
        | exact Or.inr trivial
        | exact le_total _ _

/-- C8: when the grade filter leaves no rows, `main` shows the
empty-result warning and stops that render pass without raising; when the
filtered data is nonempty but the selected segment combined with the
selected grades has no rows, only the segment tab degrades to its warning
(`segTab = none`) while the other views still render. -/
theorem c8_empty_filter_warning :
    (∀ (t : RawTable) (sel : List String) (rfm : String) (df : List Record),
      load_and_process_data (some t) = LoadResult.ok df →
      df.filter (gradeSelected sel) = [] →
      mainRender (some t) sel rfm = RenderResult.emptyFilter) ∧
    (∀ (t : RawTable) (sel : List String) (rfm : String) (df : List Record),
      load_and_process_data (some t) = LoadResult.ok df →
      df.filter (gradeSelected sel) ≠ [] →
      (df.filter (fun r => r.segment == Cell.str rfm)).filter
        (gradeSelected sel) = [] →
      ∃ v : MainView, mainRender (some t) sel rfm = RenderResult.view v ∧
        v.segTab = none ∧
        v.gradeFinancials = grade_financials (df.filter (gradeSelected sel)) ∧
        v.rfmComparison = rfm_comparison df) := by
  constructor
  · intro t sel rfm df hload hemp
    rw [mainRender_ok hload, if_pos (List.isEmpty_iff.mpr hemp)]
  · intro t sel rfm df hload hne hsegemp
    rw [mainRender_ok hload,
      if_neg (fun hco => hne (List.isEmpty_iff.mp hco))]
    refine ⟨_, rfl, ?_, rfl, rfl⟩
    show (if _ then none else _) = none
    rw [if_pos (List.isEmpty_iff.mpr hsegemp)]

theorem c8_empty_filter_warning_witness :
    mainRender (some exTableTwo) [] "Champions" = RenderResult.emptyFilter ∧
    (viewOf (mainRender (some exTableTwo) ["A (Champions)"] "NoSuch")).map
      (fun v => v.segTab) = some none := by
  constructor
  · exact c8_empty_filter_warning.1 exTableTwo [] "Champions"
      (loadedRecords (some exTableTwo)) (by with_unfolding_all decide)
      (by with_unfolding_all decide)
  · obtain ⟨v, hv, hseg, -, -⟩ := c8_empty_filter_warning.2 exTableTwo
      ["A (Champions)"] "NoSuch" (loadedRecords (some exTableTwo))
      (by with_unfolding_all decide) (by with_unfolding_all decide)
      (by with_unfolding_all decide)
    rw [hv]
    simp [viewOf, hseg]

/-- C6 (counterexample to the claim as stated): with two grade-D/A
records of one segment and only grade D selected, the rendered
all-segments comparison differs from the comparison computed over the
grade-filtered subset — `main` computes it over the full dataset. -/
theorem c6_counterexample_full_vs_filtered :
    (viewOf (mainRender (some exTableTwo) ["D (At Risk)"] "Champions")).map
        (fun v => v.rfmComparison) ≠
      some (rfm_comparison ((loadedRecords (some exTableTwo)).filter
        (gradeSelected ["D (At Risk)"]))) := by
  with_unfolding_all decide

/-- C6 (amended): the group-by-segment comparison of the predictive tab
is computed over the FULL loaded dataset, ignoring the grade selection:
one aggregation row per distinct non-null segment (count of non-null
customer ids, NaN-skipping means of cltv, current profit and 6-month
projection, rounded to 2 decimals), sorted descending by the mean
6-month projection. -/
theorem c6_rfm_comparison_full_dataset :
    ∀ (t : RawTable) (sel : List String) (rfm : String) (df : List Record)
      (v : MainView),
      load_and_process_data (some t) = LoadResult.ok df →
      mainRender (some t) sel rfm = RenderResult.view v →
      v.rfmComparison = rfm_comparison df ∧
      v.rfmComparison.Sorted proj6Desc ∧
      v.rfmComparison.Perm ((segKeys df).map (rfmRowOf df)) ∧
      (∀ row ∈ v.rfmComparison,
        row = rfmRowOf df row.segment ∧ row.segment ∈ segKeys df) := by
  intro t sel rfm df v hload hview
  rw [mainRender_ok hload] at hview
  by_cases hemp : (df.filter (gradeSelected sel)).isEmpty = true
  · rw [if_pos hemp] at hview
    cases hview
  · rw [if_neg hemp] at hview
    injection hview with hveq
    subst hveq
    refine ⟨rfl, List.sorted_insertionSort proj6Desc _,
      List.perm_insertionSort proj6Desc _, ?_⟩
    intro row hrow
    have hmem : row ∈ (segKeys df).map (rfmRowOf df) :=
      (List.perm_insertionSort proj6Desc _).mem_iff.mp hrow
    obtain ⟨s, hs, hrow_eq⟩ := List.mem_map.mp hmem
    have hseg : row.segment = s := by
      rw [← hrow_eq]
      rfl
    constructor
    · rw [hseg, hrow_eq]
    · rw [hseg]
      exact hs

theorem c6_rfm_comparison_full_dataset_witness :
    (viewOf (mainRender (some exTableTwo) ["D (At Risk)"] "Champions")).map
      (fun v => v.rfmComparison) =
      some (rfm_comparison (loadedRecords (some exTableTwo))) := by
  cases hres : mainRender (some exTableTwo) ["D (At Risk)"] "Champions" with
  | missingData => exact absurd hres (by with_unfolding_all decide)
  | raised msg =>
    exfalso
    have hsome : (viewOf (mainRender (some exTableTwo) ["D (At Risk)"]
        "Champions")).isSome = true := by
      with_unfolding_all decide
    rw [hres] at hsome
    simp [viewOf] at hsome
  | emptyFilter => exact absurd hres (by with_unfolding_all decide)
  | view v =>
    have h := c6_rfm_comparison_full_dataset exTableTwo ["D (At Risk)"]
      "Champions" (loadedRecords (some exTableTwo)) v
      (by with_unfolding_all decide) hres
    simp [viewOf, h.1]

/-- C9 (counterexample to the claim as stated): the per-grade counts of
the grade aggregation are pandas non-null counts of `Customer ID`; with a
record whose `Customer ID` cell is missing, the counts sum to one less
than the size of the filtered subset. -/
theorem c9_counterexample_null_customer_id :
    ((grade_financials ((loadedRecords (some exTableNullId)).filter
        (fun _ => true))).map (fun row => row.customerCount)).sum ≠
      ((loadedRecords (some exTableNullId)).filter (fun _ => true)).length := by
  with_unfolding_all decide

/-- C9 (amended): the grades partition every successfully loaded dataset
into at most 4 groups — every retained record carries exactly one defined
grade, and grade boundaries are monotone in `cltv` (a record of a lower
grade never has larger `cltv` than a record of a higher grade); for any
filtered subset, the per-grade counts of the group-by-grade aggregation
sum to the size of the subset provided every record of the subset has a
non-null `Customer ID` (pandas `'count'` counts non-null ids, so a
missing id makes the sum fall short — see the counterexample). -/
theorem c9_grade_partition (t : RawTable) (out : List Record)
    (h : load_and_process_data (some t) = LoadResult.ok out) :
    (∀ r ∈ out, (r.cltvGrade).isSome = true) ∧
    (observedGrades out).length ≤ 4 ∧
    (∀ r1 ∈ out, ∀ r2 ∈ out, ∀ g1 g2 : Grade,
        r1.cltvGrade = some g1 → r2.cltvGrade = some g2 →
        g1.rank < g2.rank → r1.cltv ≤ r2.cltv) ∧
    (∀ p : Record → Bool,
        (∀ r ∈ out.filter p, r.customerId ≠ Cell.empty) →
        ((grade_financials (out.filter p)).map
          (fun row => row.customerCount)).sum = (out.filter p).length) := by
  obtain rfl := load_ok_out h
  have hsome : ∀ r ∈ loadOutput t, (r.cltvGrade).isSome = true := by
    intro r hr
    rw [loadOutput_grade_some hr]
    rfl
  refine ⟨hsome, ?_, ?_, ?_⟩
  · unfold observedGrades
    simpa using List.length_filter_le _ [Grade.D, Grade.C, Grade.B, Grade.A]
  · intro r1 h1 r2 h2 g1 g2 hg1 hg2 hrank
    rw [loadOutput_grade_some h1] at hg1
    rw [loadOutput_grade_some h2] at hg2
    injection hg1 with hg1e
    injection hg2 with hg2e
    subst hg1e
    subst hg2e
    by_contra hcon
    push_neg at hcon
    have hmono := @gradeOf_rank_mono (quantile (keptCltvs t) (2/5))
      (quantile (keptCltvs t) (7/10)) (quantile (keptCltvs t) (9/10))
      r2.cltv r1.cltv (le_of_lt hcon)
    omega
  · intro p hid
    exact grade_financials_count_sum
      (fun r hr => hsome r (List.mem_filter.mp hr).1) hid

theorem c9_grade_partition_witness :
    load_and_process_data (some exTableMain) =
      LoadResult.ok (loadedRecords (some exTableMain)) ∧
    ((grade_financials ((loadedRecords (some exTableMain)).filter
        (fun _ => true))).map (fun row => row.customerCount)).sum =
      ((loadedRecords (some exTableMain)).filter (fun _ => true)).length := by
  refine ⟨by with_unfolding_all decide, ?_⟩
  exact (c9_grade_partition exTableMain (loadedRecords (some exTableMain))
    (by with_unfolding_all decide)).2.2.2 (fun _ => true)
    (by with_unfolding_all decide)
